import Mathlib

/-!
Verification development for the Pathfinder-MCP repository.

The repository is a TypeScript/JavaScript MCP server exposing Pathfinder 2e
data together with rule calculators.  This file gives a shallow embedding of
the rule calculators (crafting, treasure budget, encounter XP) and of the
AON search client (query cleaning, validation, result normalization) and
proves the frozen claims about them.

Modeling conventions:
- JS numbers that hold integer game quantities (levels, party sizes, DCs,
  gold values, counts) are modeled as `Int` (or `Nat` where the source only
  ever produces naturals).  All arithmetic in the modeled code paths is
  integer-exact in JS doubles.
- JS strings are modeled as `String`; character-level scanners work on
  `List Char`.  Case folding is ASCII `Char.toLower`, matching the source's
  use on ASCII data.
- The Elasticsearch backend is modeled as an oracle
  `SearchReq → List AonItem`; each client operation returns its result
  together with the list of requests it issued, so "before performing any
  I/O" is "the request log is empty".
- JS exceptions are modeled with `Except JsError`; `InvalidCategoryError`
  is a distinguished constructor, every other `Error` is `JsError.generic`
  carrying the message string.
- The unbounded pagination loop of `getItemsByLevel` takes an explicit fuel
  parameter; no claim exercises the loop body.
-/

/-! ### Crafting reference data (src/utils/crafting-data.ts) -/

/-- DCS_BY_LEVEL from crafting-data.ts: crafting DC table for item levels
0-20 (Table 10-5 of the Core Rulebook). -/
def DCS_BY_LEVEL : List (Int × Int) :=
  [(0, 14), (1, 15), (2, 16), (3, 18), (4, 19), (5, 20), (6, 22), (7, 23),
   (8, 24), (9, 26), (10, 27), (11, 28), (12, 30), (13, 31), (14, 32),
   (15, 34), (16, 35), (17, 36), (18, 38), (19, 39), (20, 40)]

/-- RARITY_DC_ADJUSTMENTS from crafting-data.ts. -/
def RARITY_DC_ADJUSTMENTS : List (String × Int) :=
  [("common", 0), ("uncommon", 2), ("rare", 5), ("unique", 10)]

/-- One row of RUSH_REDUCTIONS from crafting-data.ts: allowed rush days and
DC increase per rushed day, keyed by proficiency. -/
structure RushReduction where
  days : Int
  dcIncrease : Int
deriving DecidableEq

/-- RUSH_REDUCTIONS from crafting-data.ts. -/
def RUSH_REDUCTIONS : List (String × RushReduction) :=
  [("trained", ⟨0, 0⟩), ("expert", ⟨1, 5⟩), ("master", ⟨2, 10⟩),
   ("legendary", ⟨3, 15⟩)]

/-- JS `x?.f || 0` over an optional lookup result: `0` when the lookup
missed, and `0` replaces a (falsy) zero value. -/
def jsOrZero (x : Option Int) : Int :=
  match x with
  | none => 0
  | some v => if v = 0 then 0 else v

/-- ASCII lowercase of a string, modeling JS `toLowerCase` on the ASCII
data the calculators receive. -/
def toLowerStr (s : String) : String :=
  ⟨s.data.map Char.toLower⟩

/-! ### Crafting calculator (services/crafting-calculator.ts, part_019) -/

/-- `checkProficiencyRequirement` of the TypeScript `CraftingCalculator`
(part_019): level >= 16 demands legendary, level >= 9 demands master or
legendary, everything else passes (note: no check against `untrained`). -/
def checkProficiencyRequirement (itemLevel : Int) (proficiency : String) : Bool :=
  if itemLevel ≥ 16 ∧ proficiency ≠ "legendary" then false
  else if itemLevel ≥ 9 ∧ ¬(proficiency = "master" ∨ proficiency = "legendary") then false
  else true

/-- `_checkProficiencyRequirement` of the JavaScript `CraftingCalculator`
(src/utils/crafting-calculator.js): same level gates plus an expert gate at
level 2 and a blanket rejection of `untrained`. -/
def jsCheckProficiencyRequirement (itemLevel : Int) (proficiency : String) : Bool :=
  if itemLevel ≥ 16 ∧ proficiency ≠ "legendary" then false
  else if itemLevel ≥ 9 ∧ ¬(proficiency = "master" ∨ proficiency = "legendary") then false
  else if itemLevel ≥ 2 ∧ ¬(proficiency = "expert" ∨ proficiency = "master" ∨ proficiency = "legendary") then false
  else if proficiency = "untrained" then false
  else true

/-- The `DCS_BY_LEVEL[itemLevel] || 14` base of `calculateDC` in the
TypeScript `CraftingCalculator` (part_019). -/
def craftingBaseDC (itemLevel : Int) : Int :=
  match DCS_BY_LEVEL.lookup itemLevel with
  | none => 14
  | some v => if v = 0 then 14 else v

/-- `calculateDC`, continued: base DC plus the rarity adjustment. -/
def calculateDC (itemLevel : Int) (rarity : String) : Int :=
  craftingBaseDC itemLevel + jsOrZero (RARITY_DC_ADJUSTMENTS.lookup (toLowerStr rarity))

/-- `getRushPenalty` of the TypeScript `CraftingCalculator` (part_019):
`min(rushDays, RUSH_REDUCTIONS[p]?.days || 0) * (RUSH_REDUCTIONS[p]?.dcIncrease || 0)`. -/
def getRushPenalty (proficiency : String) (rushDays : Int) : Int :=
  let maxDaysAllowed := jsOrZero ((RUSH_REDUCTIONS.lookup proficiency).map (·.days))
  let dcPerDay := jsOrZero ((RUSH_REDUCTIONS.lookup proficiency).map (·.dcIncrease))
  let actualRushDays := min rushDays maxDaysAllowed
  actualRushDays * dcPerDay

/-- `adjustDC` of the TypeScript `CraftingCalculator` (part_019). -/
def adjustDC (baseDC : Int) (rushDays : Int) (proficiency : String) : Int :=
  if rushDays ≤ 0 then baseDC
  else baseDC + getRushPenalty proficiency rushDays

/-- The claim's per-tier maximum rush days (trained 0, expert 1, master 2,
legendary 3; any other tier allows none). -/
def specMaxRushDays (proficiency : String) : Int :=
  if proficiency = "expert" then 1
  else if proficiency = "master" then 2
  else if proficiency = "legendary" then 3
  else 0

/-- The claim's per-tier DC increase per rushed day (trained +0, expert +5,
master +10, legendary +15; any other tier +0). -/
def specDcPerDay (proficiency : String) : Int :=
  if proficiency = "expert" then 5
  else if proficiency = "master" then 10
  else if proficiency = "legendary" then 15
  else 0

/-- The five ordered proficiency tiers of the data model. -/
def proficiencyTiers : List String :=
  ["untrained", "trained", "expert", "master", "legendary"]

/-! ### Treasure budget calculator (part_017 / part_022) -/

/-- A `(level, quantity)` entry of a treasure budget row. -/
structure ItemQty where
  level : Int
  quantity : Int
deriving DecidableEq

/-- The `TreasureBudget` interface of treasure-by-level.ts (part_022). -/
structure TreasureBudget where
  level : Int
  totalValue : Int
  permanentItems : List ItemQty
  consumables : List ItemQty
  partyCurrency : Int
  currencyPerAdditionalPC : Int
deriving DecidableEq

/-- TREASURE_BY_LEVEL from treasure-by-level.ts (part_022): the per-level
base budgets for a party of 4 PCs. -/
def TREASURE_BY_LEVEL : List TreasureBudget :=
  [⟨1, 175, [⟨2, 2⟩, ⟨1, 2⟩], [⟨2, 2⟩, ⟨1, 3⟩], 40, 10⟩,
   ⟨2, 300, [⟨3, 2⟩, ⟨2, 2⟩], [⟨3, 2⟩, ⟨2, 2⟩, ⟨1, 2⟩], 70, 18⟩,
   ⟨3, 500, [⟨4, 2⟩, ⟨3, 2⟩], [⟨4, 2⟩, ⟨3, 2⟩, ⟨2, 2⟩], 120, 30⟩,
   ⟨4, 850, [⟨5, 2⟩, ⟨4, 2⟩], [⟨5, 2⟩, ⟨4, 2⟩, ⟨3, 2⟩], 200, 50⟩,
   ⟨5, 1350, [⟨6, 2⟩, ⟨5, 2⟩], [⟨6, 2⟩, ⟨5, 2⟩, ⟨4, 2⟩], 320, 80⟩,
   ⟨6, 2000, [⟨7, 2⟩, ⟨6, 2⟩], [⟨7, 2⟩, ⟨6, 2⟩, ⟨5, 2⟩], 500, 125⟩,
   ⟨7, 2900, [⟨8, 2⟩, ⟨7, 2⟩], [⟨8, 2⟩, ⟨7, 2⟩, ⟨6, 2⟩], 720, 180⟩,
   ⟨8, 4000, [⟨9, 2⟩, ⟨8, 2⟩], [⟨9, 2⟩, ⟨8, 2⟩, ⟨7, 2⟩], 1000, 250⟩,
   ⟨9, 5700, [⟨10, 2⟩, ⟨9, 2⟩], [⟨10, 2⟩, ⟨9, 2⟩, ⟨8, 2⟩], 1400, 350⟩,
   ⟨10, 8000, [⟨11, 2⟩, ⟨10, 2⟩], [⟨11, 2⟩, ⟨10, 2⟩, ⟨9, 2⟩], 2000, 500⟩,
   ⟨11, 11500, [⟨12, 2⟩, ⟨11, 2⟩], [⟨12, 2⟩, ⟨11, 2⟩, ⟨10, 2⟩], 2800, 700⟩,
   ⟨12, 16500, [⟨13, 2⟩, ⟨12, 2⟩], [⟨13, 2⟩, ⟨12, 2⟩, ⟨11, 2⟩], 4000, 1000⟩,
   ⟨13, 25000, [⟨14, 2⟩, ⟨13, 2⟩], [⟨14, 2⟩, ⟨13, 2⟩, ⟨12, 2⟩], 6000, 1500⟩,
   ⟨14, 36500, [⟨15, 2⟩, ⟨14, 2⟩], [⟨15, 2⟩, ⟨14, 2⟩, ⟨13, 2⟩], 9000, 2250⟩,
   ⟨15, 54500, [⟨16, 2⟩, ⟨15, 2⟩], [⟨16, 2⟩, ⟨15, 2⟩, ⟨14, 2⟩], 13000, 3250⟩,
   ⟨16, 82500, [⟨17, 2⟩, ⟨16, 2⟩], [⟨17, 2⟩, ⟨16, 2⟩, ⟨15, 2⟩], 20000, 5000⟩,
   ⟨17, 128000, [⟨18, 2⟩, ⟨17, 2⟩], [⟨18, 2⟩, ⟨17, 2⟩, ⟨16, 2⟩], 30000, 7500⟩,
   ⟨18, 208000, [⟨19, 2⟩, ⟨18, 2⟩], [⟨19, 2⟩, ⟨18, 2⟩, ⟨17, 2⟩], 48000, 12000⟩,
   ⟨19, 355000, [⟨20, 2⟩, ⟨19, 2⟩], [⟨20, 2⟩, ⟨19, 2⟩, ⟨18, 2⟩], 80000, 20000⟩,
   ⟨20, 490000, [⟨20, 4⟩], [⟨20, 4⟩, ⟨19, 2⟩], 140000, 35000⟩]

/-- JS `Math.round(q * partySize / 4)` at integer `q`, `partySize`.  The
quotient is an exact dyadic double, and `Math.round` is floor of `x + 1/2`,
so this is `⌊(q * partySize + 2) / 4⌋` with flooring division. -/
def roundScaledQuantity (q partySize : Int) : Int :=
  Int.fdiv (q * partySize + 2) 4

/-- The quantity-scaling map of `calculateTreasureBudget` (part_017):
`max(1, Math.round(quantity * scalingFactor))` on every entry. -/
def scaleItemQty (partySize : Int) (it : ItemQty) : ItemQty :=
  { it with quantity := max 1 (roundScaledQuantity it.quantity partySize) }

/-- The sandbox consumable bump of `calculateTreasureBudget` (part_017):
the first two entries gain one unit each. -/
def bumpFirstTwo : List ItemQty → List ItemQty
  | [] => []
  | a :: [] => [{ a with quantity := a.quantity + 1 }]
  | a :: b :: rest =>
      { a with quantity := a.quantity + 1 } :: { b with quantity := b.quantity + 1 } :: rest

/-- `TreasureGenerator.calculateTreasureBudget` (part_017).  The JS
scaling-factor test `partySize / 4 <= 0.75 || partySize / 4 >= 1.25` is
exact on doubles at integer `partySize`, hence the integer comparisons. -/
def calculateTreasureBudget (partyLevel : Int) (partySize : Int := 4)
    (isSandbox : Bool := false) : Option TreasureBudget :=
  match TREASURE_BY_LEVEL.find? (fun b => b.level == partyLevel) with
  | none => none
  | some baseBudget =>
    let sizeAdjustment := partySize - 4
    let adjustedCurrency :=
      baseBudget.partyCurrency + sizeAdjustment * baseBudget.currencyPerAdditionalPC
    let sandboxAdjustment := if isSandbox then baseBudget.currencyPerAdditionalPC else 0
    let scaleNow := partySize ≠ 4 ∧ (partySize ≤ 3 ∨ 5 ≤ partySize)
    let adjustedPermanentItems :=
      if scaleNow then baseBudget.permanentItems.map (scaleItemQty partySize)
      else baseBudget.permanentItems
    let adjustedConsumables :=
      if scaleNow then baseBudget.consumables.map (scaleItemQty partySize)
      else baseBudget.consumables
    let adjustedConsumables :=
      if isSandbox then bumpFirstTwo adjustedConsumables else adjustedConsumables
    some { baseBudget with
           permanentItems := adjustedPermanentItems
           consumables := adjustedConsumables
           partyCurrency := adjustedCurrency + sandboxAdjustment }

/-! ### Encounter XP calculator (src/mcp/encounter/calculateEncounterXP.ts) -/

/-- CREATURE_XP: per-unit XP by level difference from the party. -/
def CREATURE_XP : List (Int × Int) :=
  [(-4, 10), (-3, 15), (-2, 20), (-1, 30), (0, 40), (1, 60), (2, 80),
   (3, 120), (4, 160)]

/-- SIMPLE_HAZARD_XP: per-unit XP by level difference. -/
def SIMPLE_HAZARD_XP : List (Int × Int) :=
  [(-4, 2), (-3, 3), (-2, 4), (-1, 6), (0, 8), (1, 12), (2, 16), (3, 24), (4, 32)]

/-- COMPLEX_HAZARD_XP: per-unit XP by level difference. -/
def COMPLEX_HAZARD_XP : List (Int × Int) :=
  [(-4, 10), (-3, 15), (-2, 20), (-1, 30), (0, 40), (1, 60), (2, 80),
   (3, 120), (4, 160)]

/-- The threat kinds of `ThreatEntry`. -/
inductive ThreatType where
  | creature
  | simple_hazard
  | complex_hazard
deriving DecidableEq

/-- `ThreatEntry` of calculateEncounterXP.ts. -/
structure ThreatEntry where
  name : String
  level : Int
  count : Int
  type : ThreatType
deriving DecidableEq

/-- JS `TABLE[clampedDiff] || fallback`. -/
def jsTableOr (table : List (Int × Int)) (key fallback : Int) : Int :=
  match table.lookup key with
  | none => fallback
  | some v => if v = 0 then fallback else v

/-- Per-unit XP of one threat: the level difference is clamped to
`[-4, 4]` and looked up in the table matching the threat type. -/
def xpPerUnit (partyLevel : Int) (threat : ThreatEntry) : Int :=
  match threat.type with
  | .simple_hazard =>
    jsTableOr SIMPLE_HAZARD_XP (max (-4) (min 4 (threat.level - partyLevel))) 8
  | .complex_hazard =>
    jsTableOr COMPLEX_HAZARD_XP (max (-4) (min 4 (threat.level - partyLevel))) 40
  | .creature =>
    jsTableOr CREATURE_XP (max (-4) (min 4 (threat.level - partyLevel))) 40

/-- Total encounter XP: sum over threats of per-unit XP times count. -/
def encounterTotalXP (partyLevel : Int) (threats : List ThreatEntry) : Int :=
  (threats.map (fun t => xpPerUnit partyLevel t * t.count)).sum

/-- The difficulty tier string chosen by calculateEncounterXP.ts from the
total XP and the party-size-adjusted budgets. -/
def encounterDifficulty (partySize : Int) (totalXP : Int) : String :=
  let sizeAdjustment := (partySize - 4) * 20
  if totalXP ≤ 40 + sizeAdjustment then "Trivial"
  else if totalXP ≤ 60 + sizeAdjustment then "Low"
  else if totalXP ≤ 80 + sizeAdjustment then "Moderate"
  else if totalXP ≤ 120 + sizeAdjustment then "Severe"
  else if totalXP ≤ 160 + sizeAdjustment then "Extreme"
  else "DEADLY"

/-- The computational core of `calculateEncounterXP`: total XP and the
difficulty classification (the markdown rendering around it is
presentation). -/
def calculateEncounterXPCore (partyLevel : Int) (partySize : Int)
    (threats : List ThreatEntry) : Int × String :=
  let totalXP := encounterTotalXP partyLevel threats
  (totalXP, encounterDifficulty partySize totalXP)

/-! ### AON client: data model (src/config/config.ts, src/config/types.ts) -/

/-- `config.targets`: the fixed list of valid AON categories. -/
def configTargets : List String :=
  ["action", "ancestry", "archetype", "armor", "article", "background",
   "class", "creature", "creature-family", "deity", "equipment", "feat",
   "hazard", "rules", "skill", "shield", "spell", "source", "trait",
   "weapon", "weapon-group"]

/-- A JS exception: `InvalidCategoryError` is the dedicated class of
aon-client.ts, every other thrown `Error` is `generic`.  Both carry their
`message`. -/
inductive JsError where
  | invalidCategory (message : String)
  | generic (message : String)
deriving DecidableEq

/-- The `message` property read by the catch blocks. -/
def JsError.message : JsError → String
  | .invalidCategory m => m
  | .generic m => m

/-- True exactly on `InvalidCategoryError`. -/
def JsError.isInvalidCategory : JsError → Bool
  | .invalidCategory _ => true
  | .generic _ => false

/-- Whether an operation outcome is an `InvalidCategoryError`. -/
def exceptIsInvalidCategory {α : Type} : Except JsError α → Bool
  | .error e => e.isInvalidCategory
  | .ok _ => false

/-- Whether an operation outcome is any error. -/
def exceptIsError {α : Type} : Except JsError α → Bool
  | .error _ => true
  | .ok _ => false

/-- A `price` value as it sits in the index: a raw string or a number
(integer prices suffice for the claims; JS prints an integer double with
no decimal point, matching `Nat.repr`). -/
inductive PriceVal where
  | str (s : String)
  | num (n : Nat)
deriving DecidableEq

/-- The `AonItem` record shape (src/config/types.ts): required name and
category plus the optional fields the client reads or writes. -/
structure AonItem where
  name : String
  category : String
  description : Option String := none
  text : Option String := none
  level : Option Int := none
  price : Option PriceVal := none
  id : Option String := none
  traits : Option (List String) := none
  url : Option String := none
  formatted_url : Option String := none
deriving DecidableEq

/-- The Elasticsearch query DSL subset the client emits. -/
inductive EsQuery where
  | termQ (field value : String)
  | termsQ (field : String) (values : List String)
  | matchPhrase (field query : String) (boost : Option Nat)
  | multiMatch (query : String) (fields : List String) (fuzziness minimumShouldMatch tieBreaker : String)
  | matchFuzzyAnd (field query : String)
  | boolQ (must should filter mustNot : List EsQuery) (minimumShouldMatch : Option Nat)

/-- One `client.search(...)` call: everything the client passes. -/
structure SearchReq where
  index : String
  q : EsQuery
  reqFrom : Option Int := none
  size : Option Int := none
  minScore : Option Int := none
  sortNameAsc : Bool := false
  sourceFields : Option (List String) := none

/-- The `_source` field list the client requests. -/
def sourceFieldList : List String :=
  ["name", "category", "description", "text", "level", "price", "id", "traits"]

/-! ### String helpers (JS semantics on ASCII data) -/

/-- The whitespace characters relevant to JS `trim` / `\s` on the ASCII
inputs modeled here. -/
def isJsSpace (c : Char) : Bool :=
  c = ' ' ∨ c = '\t' ∨ c = '\n' ∨ c = '\r' ∨ c = '\x0b' ∨ c = '\x0c'

/-- JS `String.prototype.trim` at the character level. -/
def trimChars (cs : List Char) : List Char :=
  ((cs.dropWhile isJsSpace).reverse.dropWhile isJsSpace).reverse

/-- JS `s.trim()`. -/
def strTrim (s : String) : String :=
  ⟨trimChars s.data⟩

/-- Case-insensitive literal match: on success returns the input after the
pattern. -/
def matchCI : List Char → List Char → Option (List Char)
  | [], cs => some cs
  | _ :: _, [] => none
  | p :: ps, c :: cs => if c.toLower = p.toLower then matchCI ps cs else none

/-! ### The query-cleaning regex of searchCategory (aon-client.ts:423)

`query.replace(/^What is the |^Tell me about the |^Tell me about |spell\??|feat\??$/gi, '')`

A global, case-insensitive alternation.  The `^`-anchored branches can only
fire at index 0; `spell\??` fires anywhere; `feat\??$` only against the end
of input.  `String.replace` scans left to right without rescanning emitted
text.  The scanner below reproduces exactly that. -/

/-- The three `^`-anchored filler branches, tried in the regex's order. -/
def leadFillerMatch (cs : List Char) : Option (List Char) :=
  match matchCI "What is the ".data cs with
  | some r => some r
  | none =>
    match matchCI "Tell me about the ".data cs with
    | some r => some r
    | none => matchCI "Tell me about ".data cs

/-- The unanchored branches `spell\??` and `feat\??$`, tried in the
regex's order: `spell` plus a greedy optional `?` matches anywhere; `feat`
plus optional `?` matches only when the end of input follows. -/
def tailBranch (cs : List Char) : Option (List Char) :=
  match matchCI "spell".data cs with
  | some rest =>
    match rest with
    | [] => some []
    | c :: r => if c = '?' then some r else some (c :: r)
  | none =>
    match matchCI "feat".data cs with
    | some rest => if rest = [] ∨ rest = ['?'] then some [] else none
    | none => none

/-- The branch applicable at the current scan position: at index 0 the
anchored fillers are tried first, elsewhere only the unanchored branches. -/
def headMatch (atStart : Bool) (cs : List Char) : Option (List Char) :=
  if atStart then
    match leadFillerMatch cs with
    | some r => some r
    | none => tailBranch cs
  else tailBranch cs

/-- Fueled left-to-right global replace-by-empty scan.  With fuel at least
the input length it runs to completion (every match consumes at least one
character); exhausted fuel returns the remaining input unchanged. -/
def scanStripF : Nat → Bool → List Char → List Char
  | 0, _, cs => cs
  | _ + 1, _, [] => []
  | fuel + 1, atStart, c :: rest =>
    match headMatch atStart (c :: rest) with
    | some remainder => scanStripF fuel false remainder
    | none => c :: scanStripF fuel false rest

/-- The `cleanQuery` expression of `searchCategory` (aon-client.ts:423):
global regex removal followed by `trim()`. -/
def cleanQuery (query : String) : String :=
  ⟨trimChars (scanStripF query.data.length true query.data)⟩

/-- Strip one leading conversational filler, per the amended reading of
the spec: the three prefixes are tried in the regex's order at the start
of the string only. -/
def stripLeadFiller (cs : List Char) : List Char :=
  match leadFillerMatch cs with
  | some r => r
  | none => cs

/-- Fueled scan removing only the unanchored pieces: every occurrence of
`spell` (with greedy optional `?`) anywhere, and `feat` (optional `?`)
against the end of input, in one left-to-right pass. -/
def scanBodyF : Nat → List Char → List Char
  | 0, cs => cs
  | _ + 1, [] => []
  | fuel + 1, c :: rest =>
    match tailBranch (c :: rest) with
    | some remainder => scanBodyF fuel remainder
    | none => c :: scanBodyF fuel rest

/-- The amended description of the cleaning step, built from the spec's
words: strip one leading filler, then remove `spell`/`feat?` pieces in a
single pass, then trim. -/
def cleanQuerySpec (query : String) : String :=
  let afterLead := stripLeadFiller query.data
  ⟨trimChars (scanBodyF afterLead.length afterLead)⟩

/-- Case-insensitive "ends with". -/
def endsWithCI (pat : List Char) (cs : List Char) : Bool :=
  decide (pat.length ≤ cs.length) &&
    (matchCI pat (cs.drop (cs.length - pat.length))).isSome

/-- The cleaning step exactly as the original claim describes it: remove a
leading prefix, remove only the TRAILING suffixes `spell`/`spell?` and
`feat`/`feat?`, trim, and touch nothing else. -/
def cleanQueryClaimed (query : String) : String :=
  let cs := stripLeadFiller query.data
  let cs :=
    if endsWithCI "spell?".data cs then cs.take (cs.length - 6)
    else if endsWithCI "spell".data cs then cs.take (cs.length - 5)
    else if endsWithCI "feat?".data cs then cs.take (cs.length - 5)
    else if endsWithCI "feat".data cs then cs.take (cs.length - 4)
    else cs
  ⟨trimChars cs⟩

/-! ### URL construction and record normalization (aon-client.ts) -/

/-- JS falsiness of an optional string field (`undefined` or `""`). -/
def jsFalsyStr : Option String → Bool
  | none => true
  | some s => s = ""

/-- `name.toLowerCase().replace(/\s+/g, '-')`: each maximal whitespace run
becomes one hyphen.  The flag records whether the previous character was
part of a whitespace run. -/
def collapseWsDash : Bool → List Char → List Char
  | _, [] => []
  | prevWs, c :: rest =>
    if isJsSpace c then
      if prevWs then collapseWsDash true rest
      else '-' :: collapseWsDash true rest
    else c :: collapseWsDash false rest

/-- Keep only the characters `[a-z0-9-]` (the second replace). -/
def isSlugChar (c : Char) : Bool :=
  (('a' ≤ c ∧ c ≤ 'z') ∨ ('0' ≤ c ∧ c ≤ '9') ∨ c = '-')

/-- The slug of an item name: lowercase, whitespace runs to hyphens, strip
everything outside `[a-z0-9-]`. -/
def slugifyName (name : String) : String :=
  ⟨(collapseWsDash false (name.data.map Char.toLower)).filter isSlugChar⟩

/-- The category-to-URL-path map of `constructAonUrl`. -/
def categoryUrlMap : List (String × String) :=
  [("spell", "spells"), ("feat", "feats"), ("equipment", "equipment"),
   ("weapon", "equipment"), ("armor", "equipment"), ("shield", "equipment"),
   ("vehicle", "equipment"), ("siege-weapon", "equipment"),
   ("class", "classes"), ("ancestry", "ancestries"),
   ("background", "backgrounds"), ("archetype", "archetypes"),
   ("creature", "monsters")]

/-- The item-ID extraction of `constructAonUrl`: the last `-`-separated
part of `item.id` when the id contains a hyphen, otherwise empty. -/
def extractItemId : Option String → String
  | none => ""
  | some id =>
    if (id.data.contains '-') then
      let idParts := id.splitOn "-"
      if idParts.length ≥ 2 then idParts.getLast! else ""
    else ""

/-- The fresh-URL branch of `constructAonUrl`: category path, extracted
id and slugified name. -/
def constructAonUrlFresh (item : AonItem) : String :=
  let itemId := extractItemId item.id
  let urlPath := (categoryUrlMap.lookup item.category).getD "rules"
  "https://2e.aonprd.com/" ++ urlPath ++ ".aspx?ID=" ++ itemId ++ "&Name=" ++
    slugifyName item.name

/-- `constructAonUrl` (aon-client.ts:725): pass through an absolute-path
url, otherwise build one from the category path, the extracted id and the
slugified name. -/
def constructAonUrl (item : AonItem) : String :=
  match item.url with
  | some u =>
    if u.data.head? = some '/' then "https://2e.aonprd.com" ++ u
    else constructAonUrlFresh item
  | none => constructAonUrlFresh item

/-- `if (!item.url) item.url = constructAonUrl(item)`. -/
def backfillUrl (item : AonItem) : AonItem :=
  if jsFalsyStr item.url then { item with url := some (constructAonUrl item) }
  else item

/-- `if (item.url && !item.formatted_url) item.formatted_url = markdown link`. -/
def backfillFormattedUrl (item : AonItem) : AonItem :=
  if ¬jsFalsyStr item.url ∧ jsFalsyStr item.formatted_url then
    { item with
      formatted_url := some ("[" ++ item.name ++ "](" ++ (item.url.getD "") ++ ")") }
  else item

/-- The price normalization: absent prices become the em-dash placeholder,
numeric prices become `"<n> gp"`, string prices pass through. -/
def normalizePrice (item : AonItem) : AonItem :=
  match item.price with
  | none => { item with price := some (.str "—") }
  | some (.num n) => { item with price := some (.str (Nat.repr n ++ " gp")) }
  | some (.str _) => item

/-- The per-hit normalization body shared by `searchCategory`,
`getAllInCategory` and `getItemsByLevel`: backfill `url`, backfill
`formatted_url` as a markdown link, and normalize `price`. -/
def normalizeItem (item : AonItem) : AonItem :=
  normalizePrice (backfillFormattedUrl (backfillUrl item))

/-! ### The client operations (aon-client.ts) -/

/-- The message `validateCategory` hands to `InvalidCategoryError`, with
the `Invalid category: ` text the error class prepends. -/
def invalidCategoryMessage (category : String) : String :=
  "Invalid category: Category '" ++ category ++
    "' is not valid. Valid categories are: " ++ String.intercalate ", " configTargets

/-- `validateCategory` (aon-client.ts:391): throw `InvalidCategoryError`
unless the category is one of `config.targets`. -/
def validateCategory (category : String) : Except JsError Unit :=
  if configTargets.contains category then .ok ()
  else .error (.invalidCategory (invalidCategoryMessage category))

/-- `buildSearchQuery` (aon-client.ts:483): boosted phrase OR fuzzy
multi-match for spells and feats, category-filtered fuzzy multi-match for
everything else. -/
def buildSearchQuery (category query : String) : EsQuery :=
  if category = "spell" ∨ category = "feat" then
    .boolQ []
      [.matchPhrase "name" query (some 100),
       .multiMatch query ["name^3", "description", "text"] "AUTO" "60%" "0.3"]
      [.termQ "category" category] [] (some 1)
  else
    .boolQ
      [.termQ "category" category,
       .multiMatch query ["name^3", "description", "text"] "AUTO" "60%" "0.3"]
      [] [] [] none

/-- The backend oracle: answers every issued search with the hit sources.
Operations return their outcome together with the ordered request log. -/
abbrev SearchOracle := SearchReq → List AonItem

/-- `searchCategory` (aon-client.ts:414): validate, reject empty queries,
clean the query, run one capped search and normalize every hit. -/
def searchCategory (oracle : SearchOracle) (category query : String) :
    Except JsError (List AonItem) × List SearchReq :=
  match validateCategory category with
  | .error e => (.error e, [])
  | .ok _ =>
    if strTrim query = "" then
      (.error (.generic "Search query cannot be empty"), [])
    else
      let searchQuery := buildSearchQuery category (cleanQuery query)
      let req : SearchReq :=
        { index := "aon", q := searchQuery, reqFrom := some 0, size := some 100,
          minScore := some 5, sourceFields := some sourceFieldList }
      (.ok ((oracle req).map normalizeItem), [req])

/-- The exact-phrase request `getItem` issues first. -/
def getItemExactReq (category trimmedName : String) : SearchReq :=
  { index := "aon",
    q := .boolQ [.termQ "category" category, .matchPhrase "name" trimmedName none]
      [] [] [] none,
    size := some 1, sourceFields := some sourceFieldList }

/-- The fuzzy fallback request of `getItem`. -/
def getItemFuzzyReq (category trimmedName : String) : SearchReq :=
  { index := "aon",
    q := .boolQ [.termQ "category" category, .matchFuzzyAnd "name" trimmedName]
      [] [] [] none,
    size := some 1, sourceFields := some sourceFieldList }

/-- The `if (result)` block at the end of `getItem`: one more url
backfill and the price normalization (no formatted_url here). -/
def getItemFinishCommon (r : AonItem) : AonItem :=
  normalizePrice (backfillUrl r)

/-- The post-processing `getItem` applies to an exact hit: url and
formatted_url backfill inside the branch, then the shared url/price block. -/
def getItemFinishExact (hit : AonItem) : AonItem :=
  getItemFinishCommon (backfillFormattedUrl (backfillUrl hit))

/-- `getItem` (aon-client.ts:549): validate, reject blank names, try the
exact phrase match, fall back to the fuzzy match, return null when both
miss. -/
def getItem (oracle : SearchOracle) (category name : String) :
    Except JsError (Option AonItem) × List SearchReq :=
  match validateCategory category with
  | .error e => (.error e, [])
  | .ok _ =>
    let trimmedName := strTrim name
    if trimmedName = "" then
      (.error (.generic "Item name cannot be empty"), [])
    else
      let exactReq := getItemExactReq category trimmedName
      match oracle exactReq with
      | hit :: _ => (.ok (some (getItemFinishExact hit)), [exactReq])
      | [] =>
        let fuzzyReq := getItemFuzzyReq category trimmedName
        match oracle fuzzyReq with
        | [] => (.ok none, [exactReq, fuzzyReq])
        | hit :: _ =>
          (.ok (some (getItemFinishCommon hit)), [exactReq, fuzzyReq])

/-- `getAllInCategory` (aon-client.ts:658): validate the category and the
pagination window, run one sorted term query and normalize every hit. -/
def getAllInCategory (oracle : SearchOracle) (category : String)
    (optFrom optSize : Option Int) :
    Except JsError (List AonItem) × List SearchReq :=
  match validateCategory category with
  | .error e => (.error e, [])
  | .ok _ =>
    let reqFrom := optFrom.getD 0
    let size := optSize.getD 100
    if reqFrom < 0 then
      (.error (.generic "Starting index cannot be negative"), [])
    else if size ≤ 0 ∨ size > 1000 then
      (.error (.generic "Size must be between 1 and 1000"), [])
    else
      let req : SearchReq :=
        { index := "aon", q := .termQ "category" category, reqFrom := some reqFrom,
          size := some size, sortNameAsc := true, sourceFields := some sourceFieldList }
      (.ok ((oracle req).map normalizeItem), [req])

/-- The categories `getItemsByLevel` excludes via `must_not` when no
category list was supplied. -/
def defaultExcludedCategories : List String :=
  ["creature", "spell", "feat", "hazard", "ritual", "class-feature",
   "ancestry", "class", "archetype", "background", "curse", "disease",
   "kingdom-structure", "kingdom-event", "weather-hazard"]

/-- The equipment categories `getItemsByLevel` targets by default. -/
def defaultEquipmentCategories : List String :=
  ["armor", "equipment", "shield", "weapon", "siege-weapon", "vehicle"]

/-- The `must_not` clause of the `getItemsByLevel` query. -/
def itemsByLevelMustNot (itemCategories : Option (List String)) : List EsQuery :=
  match itemCategories with
  | none => defaultExcludedCategories.map (fun c => .termQ "category" c)
  | some cats =>
    if cats.contains "creature" then [] else [.termQ "category" "creature"]

/-- The `must` clause of the `getItemsByLevel` query after the
category-specific push. -/
def itemsByLevelMust (level : Int) (itemCategories : Option (List String)) :
    List EsQuery :=
  let base : List EsQuery := [.termQ "level" (toString level)]
  match itemCategories with
  | some (c :: cs) =>
    if cs = [] then base ++ [.termQ "category" c]
    else base ++ [.termsQ "category" (c :: cs)]
  | _ => base ++ [.termsQ "category" defaultEquipmentCategories]

/-- The fueled pagination loop of `getItemsByLevel`: fetch 250-item pages
until a short or empty page, accumulating normalized items and the
request log.  Fuel exhaustion models the loop's missing bound. -/
def itemsByLevelLoop (oracle : SearchOracle) (q : EsQuery) :
    Nat → Int → List AonItem → List SearchReq → List AonItem × List SearchReq
  | 0, _, acc, log => (acc, log)
  | fuel + 1, start, acc, log =>
    let req : SearchReq :=
      { index := "aon", q := q, reqFrom := some start, size := some 250,
        sortNameAsc := true, sourceFields := some sourceFieldList }
    match oracle req with
    | [] => (acc, log ++ [req])
    | hits =>
      let items := hits.map normalizeItem
      if items.length < 250 then (acc ++ items, log ++ [req])
      else itemsByLevelLoop oracle q fuel (start + 250) (acc ++ items) (log ++ [req])

/-- `getItemsByLevel` (aon-client.ts:789): range-check the level, build
the query, validate any supplied categories INSIDE the try block (so a
validation failure is re-wrapped by the catch), then paginate.  The first
invalid supplied category aborts the call the way `forEach` would. -/
def getItemsByLevel (oracle : SearchOracle) (fuel : Nat) (level : Int)
    (itemCategories : Option (List String)) :
    Except JsError (List AonItem) × List SearchReq :=
  if level < 0 ∨ level > 25 then
    (.error (.generic "Item level must be between 0 and 25"), [])
  else
    let validation : Except JsError Unit :=
      match itemCategories with
      | some (c :: cs) =>
        match (c :: cs).find? (fun cat => !configTargets.contains cat) with
        | some bad => .error (.invalidCategory (invalidCategoryMessage bad))
        | none => .ok ()
      | _ => .ok ()
    match validation with
    | .error e =>
      (.error (.generic ("Failed to retrieve items of level " ++ toString level ++
        ": " ++ e.message)), [])
    | .ok _ =>
      let q : EsQuery :=
        .boolQ (itemsByLevelMust level itemCategories) [] []
          (itemsByLevelMustNot itemCategories) none
      let (items, log) := itemsByLevelLoop oracle q fuel 0 [] []
      (.ok items, log)

/-! ### Concrete fixtures and checkers -/

/-- An oracle whose every search misses. -/
def emptyOracle : SearchOracle := fun _ => []

/-- A weapon hit carrying neither url nor price. -/
def noPriceItem : AonItem := { name := "Shield Boss", category := "weapon" }

/-- An oracle answering every search with the single price-less hit. -/
def onePriceItemOracle : SearchOracle := fun _ => [noPriceItem]

/-- Whether a character list is literally digits followed by " gp". -/
def isGpForm (cs : List Char) : Bool :=
  let ds := cs.takeWhile Char.isDigit
  decide (ds ≠ []) && decide (cs.drop ds.length = [' ', 'g', 'p'])

/-- Whether a price field is a string of the form "<n> gp". -/
def isGpPrice : Option PriceVal → Bool
  | some (.str s) => isGpForm s.data
  | _ => false

/-! ## Theorems -/

/-! ### Shared lemmas -/

theorem matchCI_some_length {pat cs rest : List Char}
    (h : matchCI pat cs = some rest) : rest.length + pat.length = cs.length := by
  induction pat generalizing cs with
  | nil =>
    simp only [matchCI, Option.some.injEq] at h
    simp [h]
  | cons p ps ih =>
    cases cs with
    | nil => simp [matchCI] at h
    | cons c cs =>
      simp only [matchCI] at h
      split at h
      · have := ih h
        simp only [List.length_cons]
        omega
      · exact absurd h (by simp)

theorem leadFillerMatch_length {cs r : List Char}
    (h : leadFillerMatch cs = some r) : r.length < cs.length := by
  unfold leadFillerMatch at h
  cases h1 : matchCI "What is the ".data cs with
  | some r1 =>
    rw [h1] at h
    have := matchCI_some_length h1
    simp only [Option.some.injEq] at h
    subst h
    simp at this
    omega
  | none =>
    rw [h1] at h
    cases h2 : matchCI "Tell me about the ".data cs with
    | some r2 =>
      rw [h2] at h
      have := matchCI_some_length h2
      simp only [Option.some.injEq] at h
      subst h
      simp at this
      omega
    | none =>
      rw [h2] at h
      have := matchCI_some_length h
      simp at this
      omega

theorem tailBranch_length {cs r : List Char}
    (h : tailBranch cs = some r) : r.length < cs.length := by
  unfold tailBranch at h
  cases h1 : matchCI "spell".data cs with
  | some rest =>
    rw [h1] at h
    dsimp only at h
    have hl := matchCI_some_length h1
    have h5 : ("spell".data).length = 5 := rfl
    rw [h5] at hl
    cases rest with
    | nil =>
      simp only [Option.some.injEq] at h
      subst h
      simp only [List.length_nil] at hl ⊢
      omega
    | cons a t =>
      simp only [List.length_cons] at hl
      dsimp only at h
      split_ifs at h with ha
      · simp only [Option.some.injEq] at h
        subst h
        omega
      · simp only [Option.some.injEq] at h
        subst h
        simp only [List.length_cons]
        omega
  | none =>
    rw [h1] at h
    dsimp only at h
    cases h2 : matchCI "feat".data cs with
    | some rest =>
      rw [h2] at h
      dsimp only at h
      have hl := matchCI_some_length h2
      have h4 : ("feat".data).length = 4 := rfl
      rw [h4] at hl
      split_ifs at h with ha
      simp only [Option.some.injEq] at h
      subst h
      simp only [List.length_nil]
      omega
    | none => rw [h2] at h; exact absurd h (by simp)

theorem headMatch_length {b : Bool} {cs r : List Char}
    (h : headMatch b cs = some r) : r.length < cs.length := by
  unfold headMatch at h
  split at h
  · cases h1 : leadFillerMatch cs with
    | some r1 => rw [h1] at h; simp only [Option.some.injEq] at h; subst h
                 exact leadFillerMatch_length h1
    | none => rw [h1] at h; exact tailBranch_length h
  · exact tailBranch_length h

theorem scanStripF_false_eq_body : ∀ fuel cs, scanStripF fuel false cs = scanBodyF fuel cs := by
  intro fuel
  induction fuel with
  | zero => intro cs; rfl
  | succ n ih =>
    intro cs
    cases cs with
    | nil => rfl
    | cons c rest =>
      have hm : headMatch false (c :: rest) = tailBranch (c :: rest) := rfl
      simp only [scanStripF, scanBodyF, hm]
      cases h : tailBranch (c :: rest) with
      | some rem => exact ih rem
      | none => exact congrArg (c :: ·) (ih rest)

theorem scanBodyF_fuel_irrel : ∀ f1 f2 cs, cs.length ≤ f1 → cs.length ≤ f2 →
    scanBodyF f1 cs = scanBodyF f2 cs := by
  intro f1
  induction f1 with
  | zero =>
    intro f2 cs h1 _
    have hnil : cs = [] := List.length_eq_zero.mp (Nat.le_zero.mp h1)
    subst hnil
    cases f2 <;> rfl
  | succ n ih =>
    intro f2 cs h1 h2
    cases cs with
    | nil => cases f2 <;> rfl
    | cons c rest =>
      cases f2 with
      | zero => simp at h2
      | succ m =>
        simp only [scanBodyF]
        cases h : tailBranch (c :: rest) with
        | some rem =>
          have hlt := tailBranch_length h
          simp only [List.length_cons] at h1 h2 hlt
          exact ih m rem (by omega) (by omega)
        | none =>
          simp only [List.length_cons] at h1 h2
          exact congrArg (c :: ·) (ih m rest (by omega) (by omega))

theorem scanStripF_true_spec (cs : List Char) :
    scanStripF cs.length true cs =
      scanBodyF (stripLeadFiller cs).length (stripLeadFiller cs) := by
  cases cs with
  | nil => rfl
  | cons c rest =>
    unfold stripLeadFiller
    cases h1 : leadFillerMatch (c :: rest) with
    | some r =>
      have hlt := leadFillerMatch_length h1
      have hm : headMatch true (c :: rest) = some r := by
        unfold headMatch
        rw [h1]
        rfl
      simp only [List.length_cons, scanStripF, hm]
      rw [scanStripF_false_eq_body]
      simp only [List.length_cons] at hlt
      exact scanBodyF_fuel_irrel rest.length r.length r (by omega) le_rfl
    | none =>
      have hm : headMatch true (c :: rest) = tailBranch (c :: rest) := by
        unfold headMatch
        rw [h1]
        rfl
      simp only [List.length_cons, scanStripF, scanBodyF, hm]
      cases h : tailBranch (c :: rest) with
      | some rem => exact scanStripF_false_eq_body rest.length rem
      | none => exact congrArg (c :: ·) (scanStripF_false_eq_body rest.length rest)

/-! ### C8: query cleaning -/

/-- C8 counterexample: `spell\??` in the cleaning regex is unanchored, so
"spell" is removed anywhere in the query, not only as a trailing suffix:
`cleanQuery "spellstrike"` is "strike", while the claim predicts the input
unchanged. -/
theorem cleanQuery_strips_interior_spell :
    cleanQuery "spellstrike" = "strike" ∧
    cleanQueryClaimed "spellstrike" = "spellstrike" ∧
    cleanQuery "spellstrike" ≠ cleanQueryClaimed "spellstrike" := by
  refine ⟨rfl, rfl, ?_⟩
  decide

/-- C8 (amended): the cleaned query that searchCategory builds its index
query from equals the input with at most one leading conversational prefix
("What is the ", "Tell me about the ", "Tell me about ", case-insensitive,
tried in that order) removed at the start, then every occurrence of "spell"
(with an optional following "?") removed anywhere and "feat" (optional "?")
removed only against the end of the string, in one left-to-right pass over
the original text, and the result trimmed. -/
theorem cleanQuery_characterization (query : String) :
    cleanQuery query = cleanQuerySpec query := by
  unfold cleanQuery cleanQuerySpec
  exact congrArg (fun l => String.mk (trimChars l)) (scanStripF_true_spec query.data)

/-! ### C2: rush penalty -/

/-- C2: for every proficiency tier and requested rushDays >= 0, the rush
DC penalty equals min(rushDays, maxRushDays(proficiency)) *
dcPerDay(proficiency) with the table values trained 0/+0, expert 1/+5,
master 2/+10, legendary 3/+15; it therefore never exceeds
maxRushDays * dcPerDay, and over-requesting rush days just caps (the
function is total, no error path). -/
theorem rush_penalty_capped (proficiency : String)
    (hp : proficiency ∈ proficiencyTiers) (rushDays : Int) (hr : 0 ≤ rushDays) :
    getRushPenalty proficiency rushDays =
      min rushDays (specMaxRushDays proficiency) * specDcPerDay proficiency ∧
    getRushPenalty proficiency rushDays ≤
      specMaxRushDays proficiency * specDcPerDay proficiency := by
  fin_cases hp
  · exact ⟨rfl, by show min rushDays 0 * 0 ≤ 0 * 0; omega⟩
  · exact ⟨rfl, by show min rushDays 0 * 0 ≤ 0 * 0; omega⟩
  · exact ⟨rfl, by show min rushDays 1 * 5 ≤ 1 * 5; omega⟩
  · exact ⟨rfl, by show min rushDays 2 * 10 ≤ 2 * 10; omega⟩
  · exact ⟨rfl, by show min rushDays 3 * 15 ≤ 3 * 15; omega⟩

/-- Witness for `rush_penalty_capped` at proficiency "expert" and 3
requested rush days. -/
theorem rush_penalty_capped_witness :
    "expert" ∈ proficiencyTiers ∧ (0 : Int) ≤ 3 ∧
    (getRushPenalty "expert" 3 =
        min 3 (specMaxRushDays "expert") * specDcPerDay "expert" ∧
      getRushPenalty "expert" 3 ≤ specMaxRushDays "expert" * specDcPerDay "expert") :=
  ⟨by decide, by decide, rush_penalty_capped "expert" (by decide) 3 (by decide)⟩

/-! ### C3: proficiency prerequisite -/

/-- C3 (code bug evidence): the TypeScript prerequisite check (part_019)
accepts `untrained` for a level-0 item, while the JavaScript implementation
of the same rule rejects `untrained` at every level; the level gates
(level >= 9 needs master or legendary, level >= 16 needs legendary) do hold
in the TypeScript check. -/
theorem proficiency_check_untrained (itemLevel : Int) :
    checkProficiencyRequirement 0 "untrained" = true ∧
    jsCheckProficiencyRequirement itemLevel "untrained" = false ∧
    (9 ≤ itemLevel → checkProficiencyRequirement itemLevel "untrained" = false) ∧
    (∀ proficiency : String, 9 ≤ itemLevel →
      checkProficiencyRequirement itemLevel proficiency = true →
      proficiency = "master" ∨ proficiency = "legendary") ∧
    (∀ proficiency : String, 16 ≤ itemLevel →
      checkProficiencyRequirement itemLevel proficiency = true →
      proficiency = "legendary") := by
  refine ⟨rfl, ?_, ?_, ?_, ?_⟩
  · unfold jsCheckProficiencyRequirement
    split_ifs with h1 h2 h3 h4 <;> simp_all
  · intro h9
    unfold checkProficiencyRequirement
    split_ifs with h1 h2 <;> simp_all
  · intro proficiency h9 htrue
    unfold checkProficiencyRequirement at htrue
    split_ifs at htrue with h1 h2
    all_goals simp_all
    tauto
  · intro proficiency h16 htrue
    unfold checkProficiencyRequirement at htrue
    split_ifs at htrue with h1 h2
    all_goals simp_all

/-- Witness for `proficiency_check_untrained` at item levels 9 and 16. -/
theorem proficiency_check_untrained_witness :
    checkProficiencyRequirement 0 "untrained" = true ∧
    jsCheckProficiencyRequirement 9 "untrained" = false ∧
    checkProficiencyRequirement 9 "untrained" = false ∧
    ("master" = "master" ∨ ("master" : String) = "legendary") ∧
    ("legendary" : String) = "legendary" := by
  have h9 := proficiency_check_untrained 9
  have h16 := proficiency_check_untrained 16
  exact ⟨h9.1, h9.2.1, h9.2.2.1 (by norm_num),
    h9.2.2.2.1 "master" (by norm_num) (by decide),
    h16.2.2.2.2 "legendary" (by norm_num) (by decide)⟩

/-! ### C5: crafting DC monotonicity -/

theorem base_dc_mono : ∀ a b : Fin 21, a ≤ b →
    craftingBaseDC ((a : Nat) : Int) ≤ craftingBaseDC ((b : Nat) : Int) := by
  decide

/-- C5: holding rarity fixed, the crafting DC is monotonically
non-decreasing in the item level over 0..20; holding the level fixed, the
DC strictly increases along common < uncommon < rare < unique. -/
theorem crafting_dc_monotone :
    (∀ l1 l2 : Int, 0 ≤ l1 → l1 ≤ l2 → l2 ≤ 20 → ∀ rarity : String,
      calculateDC l1 rarity ≤ calculateDC l2 rarity) ∧
    (∀ itemLevel : Int,
      calculateDC itemLevel "common" < calculateDC itemLevel "uncommon" ∧
      calculateDC itemLevel "uncommon" < calculateDC itemLevel "rare" ∧
      calculateDC itemLevel "rare" < calculateDC itemLevel "unique") := by
  constructor
  · intro l1 l2 h0 h12 h2 rarity
    have hb := base_dc_mono ⟨l1.toNat, by omega⟩ ⟨l2.toNat, by omega⟩
      (by rw [Fin.le_def]; simpa using (by omega : l1.toNat ≤ l2.toNat))
    have hb2 : craftingBaseDC ((l1.toNat : Nat) : Int) ≤
        craftingBaseDC ((l2.toNat : Nat) : Int) := hb
    rw [Int.toNat_of_nonneg h0, Int.toNat_of_nonneg (by omega : (0 : Int) ≤ l2)] at hb2
    unfold calculateDC
    exact add_le_add_right hb2 _
  · intro itemLevel
    have c0 : jsOrZero (RARITY_DC_ADJUSTMENTS.lookup (toLowerStr "common")) = 0 := rfl
    have c1 : jsOrZero (RARITY_DC_ADJUSTMENTS.lookup (toLowerStr "uncommon")) = 2 := rfl
    have c2 : jsOrZero (RARITY_DC_ADJUSTMENTS.lookup (toLowerStr "rare")) = 5 := rfl
    have c3 : jsOrZero (RARITY_DC_ADJUSTMENTS.lookup (toLowerStr "unique")) = 10 := rfl
    unfold calculateDC
    rw [c0, c1, c2, c3]
    omega

/-- Witness for `crafting_dc_monotone`: levels 3 <= 7 at rarity "rare",
and the strict rarity chain at level 12. -/
theorem crafting_dc_monotone_witness :
    calculateDC 3 "rare" ≤ calculateDC 7 "rare" ∧
    (calculateDC 12 "common" < calculateDC 12 "uncommon" ∧
     calculateDC 12 "uncommon" < calculateDC 12 "rare" ∧
     calculateDC 12 "rare" < calculateDC 12 "unique") :=
  ⟨crafting_dc_monotone.1 3 7 (by norm_num) (by norm_num) (by norm_num) "rare",
   crafting_dc_monotone.2 12⟩

/-! ### C4 / C10: treasure budget -/

theorem map_level_scale (partySize : Int) (l : List ItemQty) :
    (l.map (scaleItemQty partySize)).map ItemQty.level = l.map ItemQty.level := by
  induction l with
  | nil => rfl
  | cons a t ih => simp [scaleItemQty, ih]

theorem map_level_bump (l : List ItemQty) :
    (bumpFirstTwo l).map ItemQty.level = l.map ItemQty.level := by
  match l with
  | [] => rfl
  | [a] => rfl
  | a :: b :: rest => rfl

/-- Core description of `calculateTreasureBudget` on a level the table
covers: the returned budget keeps the table entry's level, totalValue and
currencyPerAdditionalPC, adjusts the currency linearly in the party size
with one extra increment for sandbox play, and only ever touches item-entry
quantities (their levels survive). -/
theorem treasure_find_spec (partyLevel partySize : Int) (isSandbox : Bool)
    (b : TreasureBudget)
    (hfind : TREASURE_BY_LEVEL.find? (fun e => e.level == partyLevel) = some b) :
    ∃ r, calculateTreasureBudget partyLevel partySize isSandbox = some r ∧
      r.level = b.level ∧ r.totalValue = b.totalValue ∧
      r.currencyPerAdditionalPC = b.currencyPerAdditionalPC ∧
      r.partyCurrency = b.partyCurrency + (partySize - 4) * b.currencyPerAdditionalPC
        + (if isSandbox then b.currencyPerAdditionalPC else 0) ∧
      r.permanentItems.map ItemQty.level = b.permanentItems.map ItemQty.level ∧
      r.consumables.map ItemQty.level = b.consumables.map ItemQty.level := by
  unfold calculateTreasureBudget
  rw [hfind]
  refine ⟨_, rfl, rfl, rfl, rfl, rfl, ?_, ?_⟩
  · dsimp only
    split_ifs with hs
    · exact map_level_scale partySize b.permanentItems
    · rfl
  · dsimp only
    split_ifs with hs hb hb
    · rw [map_level_bump]
      exact map_level_scale partySize b.consumables
    · rw [map_level_bump]
    · exact map_level_scale partySize b.consumables
    · rfl

/-- C4: the party-size adjustment of the treasure currency is linear with
slope currencyPerAdditionalPC around the size-4 base, sandbox play adds one
extra increment, and the level-5 scenario yields totalValue 1350 with
currency 320 (400 with sandbox). -/
theorem treasure_currency_adjustments :
    (∀ partyLevel : Int, 1 ≤ partyLevel → partyLevel ≤ 20 →
      ∃ b, TREASURE_BY_LEVEL.find? (fun e => e.level == partyLevel) = some b ∧
        (∃ r, calculateTreasureBudget partyLevel 4 false = some r ∧
          r.partyCurrency = b.partyCurrency) ∧
        (∃ r, calculateTreasureBudget partyLevel 6 false = some r ∧
          r.partyCurrency = b.partyCurrency + 2 * b.currencyPerAdditionalPC) ∧
        (∃ r, calculateTreasureBudget partyLevel 2 false = some r ∧
          r.partyCurrency = b.partyCurrency - 2 * b.currencyPerAdditionalPC) ∧
        (∀ partySize : Int, ∃ r rs,
          calculateTreasureBudget partyLevel partySize false = some r ∧
          calculateTreasureBudget partyLevel partySize true = some rs ∧
          rs.partyCurrency = r.partyCurrency + b.currencyPerAdditionalPC)) ∧
    (∃ r, calculateTreasureBudget 5 4 false = some r ∧
      r.totalValue = 1350 ∧ r.partyCurrency = 320) ∧
    (∃ r, calculateTreasureBudget 5 4 true = some r ∧ r.partyCurrency = 400) := by
  refine ⟨?_, ⟨_, rfl, rfl, rfl⟩, ⟨_, rfl, rfl⟩⟩
  intro partyLevel h1 h20
  obtain ⟨b, hfind⟩ : ∃ b,
      TREASURE_BY_LEVEL.find? (fun e => e.level == partyLevel) = some b := by
    interval_cases partyLevel <;> exact ⟨_, rfl⟩
  refine ⟨b, hfind, ?_, ?_, ?_, ?_⟩
  · obtain ⟨r, hr, _, _, _, hc, _, _⟩ := treasure_find_spec partyLevel 4 false b hfind
    refine ⟨r, hr, ?_⟩
    rw [hc]
    norm_num
  · obtain ⟨r, hr, _, _, _, hc, _, _⟩ := treasure_find_spec partyLevel 6 false b hfind
    refine ⟨r, hr, ?_⟩
    rw [hc]
    norm_num
  · obtain ⟨r, hr, _, _, _, hc, _, _⟩ := treasure_find_spec partyLevel 2 false b hfind
    refine ⟨r, hr, ?_⟩
    rw [hc]
    norm_num
    ring
  · intro partySize
    obtain ⟨r, hr, _, _, _, hc, _, _⟩ := treasure_find_spec partyLevel partySize false b hfind
    obtain ⟨rs, hrs, _, _, _, hcs, _, _⟩ := treasure_find_spec partyLevel partySize true b hfind
    refine ⟨r, rs, hr, hrs, ?_⟩
    rw [hc, hcs]
    norm_num

/-- Witness for `treasure_currency_adjustments` at level 7. -/
theorem treasure_currency_adjustments_witness :
    (1 : Int) ≤ 7 ∧ (7 : Int) ≤ 20 ∧
    ∃ b, TREASURE_BY_LEVEL.find? (fun e => e.level == (7 : Int)) = some b ∧
      (∃ r, calculateTreasureBudget 7 4 false = some r ∧
        r.partyCurrency = b.partyCurrency) ∧
      (∃ r, calculateTreasureBudget 7 6 false = some r ∧
        r.partyCurrency = b.partyCurrency + 2 * b.currencyPerAdditionalPC) ∧
      (∃ r, calculateTreasureBudget 7 2 false = some r ∧
        r.partyCurrency = b.partyCurrency - 2 * b.currencyPerAdditionalPC) ∧
      (∀ partySize : Int, ∃ r rs,
        calculateTreasureBudget 7 partySize false = some r ∧
        calculateTreasureBudget 7 partySize true = some rs ∧
        rs.partyCurrency = r.partyCurrency + b.currencyPerAdditionalPC) :=
  ⟨by norm_num, by norm_num,
   treasure_currency_adjustments.1 7 (by norm_num) (by norm_num)⟩

/-- C10: for every table-covered party level, size and sandbox flag, the
returned budget keeps the static entry's level, totalValue and
currencyPerAdditionalPC, and item entries keep their levels (only
partyCurrency and entry quantities are adjusted); the embedding is a pure
function of the static table, which the call never modifies. -/
theorem treasure_budget_preserves_table (partyLevel partySize : Int)
    (isSandbox : Bool) (b : TreasureBudget)
    (hfind : TREASURE_BY_LEVEL.find? (fun e => e.level == partyLevel) = some b) :
    ∃ r, calculateTreasureBudget partyLevel partySize isSandbox = some r ∧
      r.level = b.level ∧ r.totalValue = b.totalValue ∧
      r.currencyPerAdditionalPC = b.currencyPerAdditionalPC ∧
      r.permanentItems.map ItemQty.level = b.permanentItems.map ItemQty.level ∧
      r.consumables.map ItemQty.level = b.consumables.map ItemQty.level := by
  obtain ⟨r, hr, h1, h2, h3, _, h5, h6⟩ :=
    treasure_find_spec partyLevel partySize isSandbox b hfind
  exact ⟨r, hr, h1, h2, h3, h5, h6⟩

/-- Witness for `treasure_budget_preserves_table` at level 5, size 7,
sandbox play. -/
theorem treasure_budget_preserves_table_witness :
    ∃ r, calculateTreasureBudget 5 7 true = some r ∧
      r.level = 5 ∧ r.totalValue = 1350 ∧ r.currencyPerAdditionalPC = 80 ∧
      r.permanentItems.map ItemQty.level = [6, 5] ∧
      r.consumables.map ItemQty.level = [6, 5, 4] := by
  obtain ⟨r, hr, h1, h2, h3, h5, h6⟩ := treasure_budget_preserves_table 5 7 true
    ⟨5, 1350, [⟨6, 2⟩, ⟨5, 2⟩], [⟨6, 2⟩, ⟨5, 2⟩, ⟨4, 2⟩], 320, 80⟩ rfl
  refine ⟨r, hr, h1, h2, h3, ?_, ?_⟩
  · rw [h5]
    rfl
  · rw [h6]
    rfl

/-! ### C6: encounter XP -/

/-- C6: a creature at the party's level contributes exactly 40 XP per unit
and the total XP never depends on the party size (only the difficulty
budgets do); level differences beyond +-4 clamp to the +-4 table value;
the total is the sum of per-unit XP times count; and the level-5 scenario
(one creature at party level, two creatures-worth of count at difference
-2) totals 40 + 2*20 = 80 XP, classified Moderate for 4 players. -/
theorem encounter_xp_rules :
    (∀ partyLevel : Int, ∀ name : String, ∀ count : Int,
      xpPerUnit partyLevel ⟨name, partyLevel, count, .creature⟩ = 40) ∧
    (∀ partyLevel partySize1 partySize2 : Int, ∀ threats : List ThreatEntry,
      (calculateEncounterXPCore partyLevel partySize1 threats).1 =
        (calculateEncounterXPCore partyLevel partySize2 threats).1) ∧
    (∀ partyLevel : Int, ∀ t : ThreatEntry, 4 < t.level - partyLevel →
      xpPerUnit partyLevel t = xpPerUnit partyLevel { t with level := partyLevel + 4 }) ∧
    (∀ partyLevel : Int, ∀ t : ThreatEntry, t.level - partyLevel < -4 →
      xpPerUnit partyLevel t = xpPerUnit partyLevel { t with level := partyLevel - 4 }) ∧
    (∀ partyLevel : Int, ∀ threats : List ThreatEntry,
      (calculateEncounterXPCore partyLevel 4 threats).1 =
        (threats.map (fun t => xpPerUnit partyLevel t * t.count)).sum) ∧
    calculateEncounterXPCore 5 4 [⟨"Ogre", 5, 1, .creature⟩, ⟨"Wolf", 3, 2, .creature⟩]
      = (80, "Moderate") := by
  refine ⟨?_, ?_, ?_, ?_, ?_, ?_⟩
  · intro partyLevel name count
    show jsTableOr CREATURE_XP (max (-4) (min 4 (partyLevel - partyLevel))) 40 = 40
    rw [sub_self]
    rfl
  · intro _ _ _ _
    rfl
  · intro partyLevel t h
    have h1 : max (-4) (min 4 (t.level - partyLevel)) = 4 := by omega
    have h2 : max (-4) (min 4 (partyLevel + 4 - partyLevel)) = 4 := by omega
    cases t with
    | mk name level count ty =>
      cases ty <;> simp only [xpPerUnit] <;> rw [h1, h2]
  · intro partyLevel t h
    have h1 : max (-4) (min 4 (t.level - partyLevel)) = -4 := by omega
    have h2 : max (-4) (min 4 (partyLevel - 4 - partyLevel)) = -4 := by omega
    cases t with
    | mk name level count ty =>
      cases ty <;> simp only [xpPerUnit] <;> rw [h1, h2]
  · intro _ _
    rfl
  · rfl

/-- Witness for `encounter_xp_rules`: clamping at differences +7 and -8. -/
theorem encounter_xp_rules_witness :
    xpPerUnit 5 ⟨"Dragon", 12, 1, .creature⟩ =
      xpPerUnit 5 ⟨"Dragon", 9, 1, .creature⟩ ∧
    xpPerUnit 5 ⟨"Rat", -3, 2, .creature⟩ = xpPerUnit 5 ⟨"Rat", 1, 2, .creature⟩ ∧
    xpPerUnit 7 ⟨"Bear", 7, 3, .creature⟩ = 40 := by
  refine ⟨?_, ?_, encounter_xp_rules.1 7 "Bear" 3⟩
  · exact encounter_xp_rules.2.2.1 5 ⟨"Dragon", 12, 1, .creature⟩ (by norm_num)
  · exact encounter_xp_rules.2.2.2.1 5 ⟨"Rat", -3, 2, .creature⟩ (by norm_num)

/-! ### C7 / C9 / C1: client lemmas -/

theorem append_ne_empty_left (a b : String) (ha : a ≠ "") : a ++ b ≠ "" := by
  intro h
  apply ha
  have hd : (a ++ b).data = [] := by rw [h]
  rw [String.data_append] at hd
  have ha2 : a.data = [] := (List.append_eq_nil.mp hd).1
  cases a with
  | mk d =>
    cases ha2
    rfl

theorem constructAonUrlFresh_ne_empty (item : AonItem) :
    constructAonUrlFresh item ≠ "" := by
  unfold constructAonUrlFresh
  dsimp only
  apply append_ne_empty_left
  apply append_ne_empty_left
  apply append_ne_empty_left
  apply append_ne_empty_left
  apply append_ne_empty_left
  decide

theorem constructAonUrl_ne_empty (item : AonItem) : constructAonUrl item ≠ "" := by
  unfold constructAonUrl
  cases item.url with
  | none => exact constructAonUrlFresh_ne_empty item
  | some u =>
    dsimp only
    split_ifs
    · exact append_ne_empty_left _ _ (by decide)
    · exact constructAonUrlFresh_ne_empty item

theorem backfillUrl_price (item : AonItem) :
    (backfillUrl item).price = item.price := by
  unfold backfillUrl
  split_ifs <;> rfl

theorem backfillFormattedUrl_price (item : AonItem) :
    (backfillFormattedUrl item).price = item.price := by
  unfold backfillFormattedUrl
  split_ifs <;> rfl

theorem backfillFormattedUrl_url (item : AonItem) :
    (backfillFormattedUrl item).url = item.url := by
  unfold backfillFormattedUrl
  split_ifs <;> rfl

theorem normalizePrice_url (item : AonItem) :
    (normalizePrice item).url = item.url := by
  unfold normalizePrice
  rcases hp : item.price with _ | pv
  · rfl
  · cases pv <;> rfl

theorem normalizePrice_price_none (item : AonItem) (h : item.price = none) :
    (normalizePrice item).price = some (.str "—") := by
  unfold normalizePrice
  rw [h]

theorem normalizePrice_price_num (item : AonItem) (n : Nat)
    (h : item.price = some (.num n)) :
    (normalizePrice item).price = some (.str (Nat.repr n ++ " gp")) := by
  unfold normalizePrice
  rw [h]

theorem normalizePrice_price_str (item : AonItem) (s : String)
    (h : item.price = some (.str s)) :
    (normalizePrice item).price = some (.str s) := by
  unfold normalizePrice
  rw [h]
  exact h

theorem backfillUrl_url (item : AonItem) :
    (backfillUrl item).url = some (constructAonUrl item) ∨
    ((backfillUrl item).url = item.url ∧ ¬jsFalsyStr item.url) := by
  unfold backfillUrl
  split_ifs with h
  · left
    rfl
  · right
    exact ⟨rfl, h⟩

theorem normalizeItem_url_some (item : AonItem) :
    ∃ s, (normalizeItem item).url = some s ∧ s ≠ "" := by
  unfold normalizeItem
  rw [normalizePrice_url, backfillFormattedUrl_url]
  rcases backfillUrl_url item with h | ⟨h, hfal⟩
  · exact ⟨constructAonUrl item, h, constructAonUrl_ne_empty item⟩
  · rcases hu : item.url with _ | s
    · rw [hu] at hfal
      exact absurd rfl hfal
    · rw [hu] at h hfal
      unfold jsFalsyStr at hfal
      exact ⟨s, h, by simpa using hfal⟩

theorem normalizeItem_price_none (item : AonItem) (h : item.price = none) :
    (normalizeItem item).price = some (.str "—") := by
  unfold normalizeItem
  apply normalizePrice_price_none
  rw [backfillFormattedUrl_price, backfillUrl_price]
  exact h

theorem normalizeItem_price_num (item : AonItem) (n : Nat)
    (h : item.price = some (.num n)) :
    (normalizeItem item).price = some (.str (Nat.repr n ++ " gp")) := by
  unfold normalizeItem
  apply normalizePrice_price_num
  rw [backfillFormattedUrl_price, backfillUrl_price]
  exact h

theorem normalizeItem_price_passthrough (item : AonItem) (s : String)
    (h : item.price = some (.str s)) :
    (normalizeItem item).price = some (.str s) := by
  unfold normalizeItem
  apply normalizePrice_price_str
  rw [backfillFormattedUrl_price, backfillUrl_price]
  exact h

theorem normalizeItem_url_backfilled (item : AonItem)
    (h : jsFalsyStr item.url = true) :
    (normalizeItem item).url = some (constructAonUrl item) := by
  unfold normalizeItem
  rw [normalizePrice_url, backfillFormattedUrl_url]
  unfold backfillUrl
  rw [if_pos h]

theorem normalizeItem_price_str (item : AonItem) :
    ∃ s, (normalizeItem item).price = some (.str s) := by
  unfold normalizeItem
  rcases hp : (backfillFormattedUrl (backfillUrl item)).price with _ | pv
  · exact ⟨"—", normalizePrice_price_none _ hp⟩
  · cases pv with
    | str s => exact ⟨s, normalizePrice_price_str _ s hp⟩
    | num n => exact ⟨Nat.repr n ++ " gp", normalizePrice_price_num _ n hp⟩

/-! ### C7: searchCategory result normalization -/

/-- C7 counterexample: a hit whose price the index omitted comes back with
the em-dash placeholder "—", which is not a string of the form "<n> gp". -/
theorem searchCategory_price_placeholder :
    (searchCategory onePriceItemOracle "weapon" "shield boss").1 =
      .ok [normalizeItem noPriceItem] ∧
    (normalizeItem noPriceItem).price = some (.str "—") ∧
    isGpPrice (normalizeItem noPriceItem).price = false :=
  ⟨rfl, rfl, rfl⟩

/-- C7 (amended): for every valid category and non-blank query, provided
the index honors the requested page size (100), searchCategory succeeds
with at most 100 records; every returned record carries a non-empty url
(constructed from category, id and slugified name whenever the index
omitted it) and a string price; the price is normalized to "<n> gp"
exactly for numeric index prices, becomes the "—" placeholder for absent
ones, and an index-supplied price string passes through unchanged. -/
theorem searchCategory_normalizes (oracle : SearchOracle) (category query : String)
    (hvalid : configTargets.contains category = true)
    (hquery : ¬strTrim query = "")
    (hsize : ∀ req : SearchReq, req.size = some 100 → (oracle req).length ≤ 100) :
    ∃ items, (searchCategory oracle category query).1 = .ok items ∧
      items.length ≤ 100 ∧
      (∀ r ∈ items, (∃ s, r.url = some s ∧ s ≠ "") ∧ ∃ s, r.price = some (.str s)) ∧
      (∀ hit : AonItem, hit.price = none →
        (normalizeItem hit).price = some (.str "—")) ∧
      (∀ hit : AonItem, ∀ n : Nat, hit.price = some (.num n) →
        (normalizeItem hit).price = some (.str (Nat.repr n ++ " gp"))) ∧
      (∀ hit : AonItem, ∀ s : String, hit.price = some (.str s) →
        (normalizeItem hit).price = some (.str s)) ∧
      (∀ hit : AonItem, jsFalsyStr hit.url = true →
        (normalizeItem hit).url = some (constructAonUrl hit)) := by
  have hv : validateCategory category = .ok () := by
    unfold validateCategory
    rw [hvalid]
    rfl
  unfold searchCategory
  rw [hv, if_neg hquery]
  refine ⟨_, rfl, ?_, ?_, normalizeItem_price_none, normalizeItem_price_num,
    normalizeItem_price_passthrough, normalizeItem_url_backfilled⟩
  · rw [List.length_map]
    exact hsize _ rfl
  · intro r hr
    obtain ⟨hit, _, rfl⟩ := List.mem_map.mp hr
    exact ⟨normalizeItem_url_some hit, normalizeItem_price_str hit⟩

/-- Witness for `searchCategory_normalizes` on the one-hit oracle with
category "weapon" and query "sword". -/
theorem searchCategory_normalizes_witness :
    configTargets.contains "weapon" = true ∧
    ¬strTrim "sword" = "" ∧
    ∃ items, (searchCategory onePriceItemOracle "weapon" "sword").1 = .ok items ∧
      items.length ≤ 100 ∧
      (∀ r ∈ items, (∃ s, r.url = some s ∧ s ≠ "") ∧ ∃ s, r.price = some (.str s)) ∧
      (∀ hit : AonItem, hit.price = none →
        (normalizeItem hit).price = some (.str "—")) ∧
      (∀ hit : AonItem, ∀ n : Nat, hit.price = some (.num n) →
        (normalizeItem hit).price = some (.str (Nat.repr n ++ " gp"))) ∧
      (∀ hit : AonItem, ∀ s : String, hit.price = some (.str s) →
        (normalizeItem hit).price = some (.str s)) ∧
      (∀ hit : AonItem, jsFalsyStr hit.url = true →
        (normalizeItem hit).url = some (constructAonUrl hit)) := by
  refine ⟨by decide, by decide,
    searchCategory_normalizes onePriceItemOracle "weapon" "sword" (by decide)
      (by decide) ?_⟩
  intro req _
  show ([noPriceItem]).length ≤ 100
  norm_num

/-! ### C9: getItem blank name and missing item -/

/-- C9: with a valid category, getItem on a blank (whitespace-only) name
fails with the empty-name error before issuing any search; on a non-blank
name for which neither the exact-phrase search nor the fuzzy fallback
returns a hit, it returns null rather than failing. -/
theorem getItem_blank_and_miss (oracle : SearchOracle) (category name : String)
    (hvalid : configTargets.contains category = true) :
    (strTrim name = "" → getItem oracle category name =
      (.error (.generic "Item name cannot be empty"), [])) ∧
    ((∀ req, oracle req = []) → ¬strTrim name = "" →
      (getItem oracle category name).1 = .ok none) := by
  have hv : validateCategory category = .ok () := by
    unfold validateCategory
    rw [hvalid]
    rfl
  constructor
  · intro hblank
    unfold getItem
    rw [hv, if_pos hblank]
  · intro hmiss hname
    unfold getItem
    rw [hv, if_neg hname]
    dsimp only
    simp only [hmiss]

/-- Witness for `getItem_blank_and_miss` at category "spell" with a
whitespace name and with the name "Fireball" against the empty oracle. -/
theorem getItem_blank_and_miss_witness :
    configTargets.contains "spell" = true ∧
    getItem emptyOracle "spell" "   " =
      (.error (.generic "Item name cannot be empty"), []) ∧
    (getItem emptyOracle "spell" "Fireball").1 = .ok none := by
  have hblank := getItem_blank_and_miss emptyOracle "spell" "   " (by decide)
  have hmiss := getItem_blank_and_miss emptyOracle "spell" "Fireball" (by decide)
  exact ⟨by decide, hblank.1 (by decide), hmiss.2 (fun _ => rfl) (by decide)⟩

/-! ### C1: invalid categories are rejected before any I/O -/

/-- C1 counterexample: with an invalid supplied category, getItemsByLevel
does fail before issuing any search, but NOT with InvalidCategoryError:
the validation happens inside the try block, so the catch re-wraps it
into the generic retrieval failure (contrast searchCategory, whose
rejection IS the InvalidCategoryError). -/
theorem getItemsByLevel_wraps_invalid_category :
    exceptIsError (getItemsByLevel emptyOracle 0 5 (some ["bogus"])).1 = true ∧
    exceptIsInvalidCategory (getItemsByLevel emptyOracle 0 5 (some ["bogus"])).1 = false ∧
    (getItemsByLevel emptyOracle 0 5 (some ["bogus"])).2 = [] ∧
    exceptIsInvalidCategory (searchCategory emptyOracle "bogus" "sword").1 = true :=
  ⟨rfl, rfl, rfl, rfl⟩

/-- C1 (amended): for every invalid category, searchCategory, getItem and
getAllInCategory fail with the InvalidCategoryError before issuing any
search; getItemsByLevel with such a category supplied (and an in-range
level) also fails before issuing any search, but surfaces the generic
retrieval-failure error wrapping the InvalidCategoryError message instead
of the InvalidCategoryError itself. -/
theorem invalid_category_rejected_before_io (oracle : SearchOracle)
    (category : String) (hinvalid : configTargets.contains category = false) :
    (∀ query, searchCategory oracle category query =
      (.error (.invalidCategory (invalidCategoryMessage category)), [])) ∧
    (∀ name, getItem oracle category name =
      (.error (.invalidCategory (invalidCategoryMessage category)), [])) ∧
    (∀ optFrom optSize, getAllInCategory oracle category optFrom optSize =
      (.error (.invalidCategory (invalidCategoryMessage category)), [])) ∧
    (∀ fuel : Nat, ∀ level : Int, ∀ c : String, ∀ cs : List String,
      ¬(level < 0 ∨ level > 25) →
      (c :: cs).find? (fun cat => !configTargets.contains cat) = some category →
      getItemsByLevel oracle fuel level (some (c :: cs)) =
        (.error (.generic ("Failed to retrieve items of level " ++ toString level ++
          ": " ++ invalidCategoryMessage category)), [])) := by
  have hv : validateCategory category =
      .error (.invalidCategory (invalidCategoryMessage category)) := by
    unfold validateCategory
    rw [hinvalid]
    rfl
  refine ⟨?_, ?_, ?_, ?_⟩
  · intro query
    unfold searchCategory
    rw [hv]
  · intro name
    unfold getItem
    rw [hv]
  · intro optFrom optSize
    unfold getAllInCategory
    rw [hv]
  · intro fuel level c cs hlevel hfind
    unfold getItemsByLevel
    rw [if_neg hlevel]
    dsimp only
    rw [hfind]
    rfl

/-- Witness for `invalid_category_rejected_before_io` at category "bogus". -/
theorem invalid_category_rejected_witness :
    configTargets.contains "bogus" = false ∧
    searchCategory emptyOracle "bogus" "fireball" =
      (.error (.invalidCategory (invalidCategoryMessage "bogus")), []) ∧
    getItem emptyOracle "bogus" "Fireball" =
      (.error (.invalidCategory (invalidCategoryMessage "bogus")), []) ∧
    getAllInCategory emptyOracle "bogus" none none =
      (.error (.invalidCategory (invalidCategoryMessage "bogus")), []) ∧
    getItemsByLevel emptyOracle 3 5 (some ["bogus"]) =
      (.error (.generic ("Failed to retrieve items of level " ++ toString (5 : Int) ++
        ": " ++ invalidCategoryMessage "bogus")), []) := by
  have h := invalid_category_rejected_before_io emptyOracle "bogus" (by decide)
  exact ⟨by decide, h.1 "fireball", h.2.1 "Fireball", h.2.2.1 none none,
    h.2.2.2 3 5 "bogus" [] (by decide) (by decide)⟩
